import Mathlib

/-!
Verification development for the SQL/JSON path executor
(src/backend/utils/adt/jsonpath_exec.c).

The C executor is shallowly embedded: items (`JsonbValue`) are a tagged
tree, arbitrary-precision decimals (`Numeric`) are carried as `Rat`,
containers are Lean lists, error results are the explicit status
`jperError` (the `throwErrors == false` regime; the distinction between
raising and returning a status is modelled separately where a claim
depends on it).  External collaborators of the executor (the numeric
library, collation-aware string compare, the datetime parser and
coercion primitives) are modelled by simple executable stand-ins; every
place where this happens is marked in the doc comment of the
corresponding definition.
-/

/-- Tri-state result of a jsonpath predicate (enum JsonPathBool). -/
inductive JsonPathBool where
  | jpbFalse
  | jpbTrue
  | jpbUnknown
deriving DecidableEq, Repr

/-- Result of jsonpath expression evaluation (enum JsonPathExecResult). -/
inductive JsonPathExecResult where
  | jperOk
  | jperNotFound
  | jperError
deriving DecidableEq, Repr

/-- Datetime type tags of the virtual datetime item
(DATEOID / TIMEOID / TIMETZOID / TIMESTAMPOID / TIMESTAMPTZOID). -/
inductive SqlDatetimeType where
  | dtDate
  | dtTime
  | dtTimeTz
  | dtTimestamp
  | dtTimestampTz
deriving DecidableEq, Repr

/-- SQL/JSON item (union JsonItem).  Scalars are always extracted, so
`arr`/`obj` stand for jbvBinary containers holding an array/object; the
`datetime` variant is the in-memory virtual datetime item carrying a
type tag, an abstract payload and a time zone offset. -/
inductive JsonbValue where
  | null
  | bool (b : Bool)
  | num (n : Rat)
  | str (s : String)
  | arr (elems : List JsonbValue)
  | obj (fields : List (String × JsonbValue))
  | datetime (typ : SqlDatetimeType) (value : Int) (tz : Int)

/-- Result of JsonbType(): jbv* type of a JsonItem, where binary
containers report jbvObject / jbvArray (it never returns jbvBinary). -/
inductive JbType where
  | tNull
  | tBool
  | tNumeric
  | tString
  | tArray
  | tObject
  | tDatetime
deriving DecidableEq, Repr

/-- JsonbType(jb): container-resolving type of an item. -/
def JsonbType : JsonbValue → JbType
  | .null => .tNull
  | .bool _ => .tBool
  | .num _ => .tNumeric
  | .str _ => .tString
  | .arr _ => .tArray
  | .obj _ => .tObject
  | .datetime _ _ _ => .tDatetime

/-- Raw jbv-level type tag of an item (the `type` field of JsonItem):
composite containers are jbvBinary, datetime is the virtual jsiDatetime. -/
inductive JbvRawType where
  | jbvNull
  | jbvBool
  | jbvNumeric
  | jbvString
  | jbvBinary
  | jsiDatetime
deriving DecidableEq, Repr

/-- Raw `type` field of an item, as compareItems reads it. -/
def jbvTypeOf : JsonbValue → JbvRawType
  | .null => .jbvNull
  | .bool _ => .jbvBool
  | .num _ => .jbvNumeric
  | .str _ => .jbvString
  | .arr _ => .jbvBinary
  | .obj _ => .jbvBinary
  | .datetime _ _ _ => .jsiDatetime

/-- Comparison operators handled by compareItems (the comparison subset
of enum JsonPathItemType). -/
inductive CmpOp where
  | jpiEqual
  | jpiNotEqual
  | jpiLess
  | jpiGreater
  | jpiLessOrEqual
  | jpiGreaterOrEqual
deriving DecidableEq, Repr

/-- Three-way comparison on rationals standing in for numeric_cmp of the
external arbitrary-precision numeric library (compareNumeric). -/
def compareNumeric (a b : Rat) : Int :=
  if a < b then -1 else if a = b then 0 else 1

/-- Three-way comparison on strings standing in for the external
collation-aware varstr_cmp; the collation is modelled as code-point
order (the executor just delegates string ordering). -/
def varstrCmp (a b : String) : Int :=
  if a < b then -1 else if a = b then 0 else 1

/-- PG_INT32_MIN, the sentinel meaning no time zone is available. -/
def tzSentinel : Int := -2147483648

/-- Modelled from the spec: external coercion date2timestamp_internal
(spec section 7, coerce date to timestamp); days become microseconds. -/
def date_to_timestamp (d : Int) : Int := d * 86400000000

/-- Modelled from the spec: external coercion date2timestamptz_internal;
errors when no time zone is available (tz equals the sentinel). -/
def date_to_timestamptz (d tz : Int) : Option Int :=
  if tz = tzSentinel then none else some (d * 86400000000 + tz * 1000000)

/-- time_to_timetz: attaches the session zone to a time value; errors
when no time zone is available (tz equals the sentinel). -/
def time_to_timetz (t tz : Int) : Option (Int × Int) :=
  if tz = tzSentinel then none else some (t, tz)

/-- timestamp_to_timestamptz: errors when no time zone is available. -/
def timestamp_to_timestamptz (ts tz : Int) : Option Int :=
  if tz = tzSentinel then none else some (ts + tz * 1000000)

/-- Three-way comparison on integers (the int result convention of the
external *_cmp datetime functions). -/
def intCmp3 (a b : Int) : Int :=
  if a < b then -1 else if a = b then 0 else 1

/-- Modelled from the spec: external timetz_cmp, comparing zone-adjusted
times first and zones second. -/
def timetzCmp (a b : Int × Int) : Int :=
  let av := a.1 - a.2 * 1000000
  let bv := b.1 - b.2 * 1000000
  if av = bv then intCmp3 a.2 b.2 else intCmp3 av bv

/-- compareDatetime: cross-type comparison of two datetime items.
Returns none when the pair is not comparable (the C 'error' flag),
following the dispatch of the source function; the leaf comparison and
coercion primitives are external and modelled above. -/
def compareDatetime (t1 : SqlDatetimeType) (v1 tz1 : Int)
    (t2 : SqlDatetimeType) (v2 tz2 : Int) : Option Int :=
  match t1, t2 with
  | .dtDate, .dtDate => some (intCmp3 v1 v2)
  | .dtDate, .dtTimestamp => some (intCmp3 (date_to_timestamp v1) v2)
  | .dtDate, .dtTimestampTz =>
      (date_to_timestamptz v1 tz1).map (fun x => intCmp3 x v2)
  | .dtDate, .dtTime => none
  | .dtDate, .dtTimeTz => none
  | .dtTime, .dtTime => some (intCmp3 v1 v2)
  | .dtTime, .dtTimeTz =>
      (time_to_timetz v1 tz1).map (fun x => timetzCmp x (v2, tz2))
  | .dtTime, _ => none
  | .dtTimeTz, .dtTime =>
      (time_to_timetz v2 tz2).map (fun x => timetzCmp (v1, tz1) x)
  | .dtTimeTz, .dtTimeTz => some (timetzCmp (v1, tz1) (v2, tz2))
  | .dtTimeTz, _ => none
  | .dtTimestamp, .dtDate => some (intCmp3 v1 (date_to_timestamp v2))
  | .dtTimestamp, .dtTimestamp => some (intCmp3 v1 v2)
  | .dtTimestamp, .dtTimestampTz =>
      (timestamp_to_timestamptz v1 tz1).map (fun x => intCmp3 x v2)
  | .dtTimestamp, _ => none
  | .dtTimestampTz, .dtDate =>
      (date_to_timestamptz v2 tz2).map (fun x => intCmp3 v1 x)
  | .dtTimestampTz, .dtTimestamp =>
      (timestamp_to_timestamptz v2 tz2).map (fun x => intCmp3 v1 x)
  | .dtTimestampTz, .dtTimestampTz => some (intCmp3 v1 v2)
  | .dtTimestampTz, _ => none

/-- Final operator dispatch of compareItems: turn the three-way cmp
value into the boolean answer for operator op. -/
def applyCmpOp (op : CmpOp) (cmp : Int) : JsonPathBool :=
  match op with
  | .jpiEqual => if cmp = 0 then .jpbTrue else .jpbFalse
  | .jpiNotEqual => if cmp ≠ 0 then .jpbTrue else .jpbFalse
  | .jpiLess => if cmp < 0 then .jpbTrue else .jpbFalse
  | .jpiGreater => if cmp > 0 then .jpbTrue else .jpbFalse
  | .jpiLessOrEqual => if cmp ≤ 0 then .jpbTrue else .jpbFalse
  | .jpiGreaterOrEqual => if cmp ≥ 0 then .jpbTrue else .jpbFalse

/-- compareItems: compare two SQL/JSON items with comparison op.
Items of different raw types: with a null on one side, inequality is
true and every other operator false; otherwise the pair is not
comparable (unknown).  Same-type scalars compare by value (strings by
exact bytes for equality, by collation otherwise); binary containers
are not comparable. -/
def compareItems (op : CmpOp) (jsi1 jsi2 : JsonbValue) : JsonPathBool :=
  if jbvTypeOf jsi1 ≠ jbvTypeOf jsi2 then
    if jbvTypeOf jsi1 = .jbvNull ∨ jbvTypeOf jsi2 = .jbvNull then
      if op = .jpiNotEqual then .jpbTrue else .jpbFalse
    else
      .jpbUnknown
  else
    match jsi1, jsi2 with
    | .null, .null => applyCmpOp op 0
    | .bool b1, .bool b2 =>
        applyCmpOp op (if b1 = b2 then 0 else if b1 then 1 else -1)
    | .num n1, .num n2 => applyCmpOp op (compareNumeric n1 n2)
    | .str s1, .str s2 =>
        if op = .jpiEqual then
          (if s1 = s2 then .jpbTrue else .jpbFalse)
        else
          applyCmpOp op (varstrCmp s1 s2)
    | .datetime t1 v1 z1, .datetime t2 v2 z2 =>
        match compareDatetime t1 v1 z1 t2 v2 z2 with
        | none => .jpbUnknown
        | some c => applyCmpOp op c
    | _, _ => .jpbUnknown

/-- executeStartsWith: STARTS WITH predicate callback; non-string
operands yield unknown, otherwise the match is by prefix bytes. -/
def executeStartsWith (whole initial : JsonbValue) : JsonPathBool :=
  match whole, initial with
  | .str w, .str i => if i.isPrefixOf w then .jpbTrue else .jpbFalse
  | .str _, _ => .jpbUnknown
  | _, _ => .jpbUnknown

/-- Inner loop of executePredicate: iterate the right-operand sequence
for a fixed left item, carrying the error/found flags.  A left value is
the answer of the whole predicate when the loop returns early: unknown
in strict mode at the first unknown pair, true in lax mode at the first
matching pair.  Otherwise the updated flags are handed back. -/
def execPredicateRow (strictAbsenseOfErrors : Bool)
    (exec : JsonbValue → JsonbValue → JsonPathBool) (lval : JsonbValue) :
    List JsonbValue → Bool → Bool → JsonPathBool ⊕ (Bool × Bool)
  | [], error, found => .inr (error, found)
  | rval :: rtail, error, found =>
    match exec lval rval with
    | .jpbUnknown =>
        if strictAbsenseOfErrors then .inl .jpbUnknown
        else execPredicateRow strictAbsenseOfErrors exec lval rtail true found
    | .jpbTrue =>
        if strictAbsenseOfErrors then
          execPredicateRow strictAbsenseOfErrors exec lval rtail error true
        else .inl .jpbTrue
    | .jpbFalse =>
        execPredicateRow strictAbsenseOfErrors exec lval rtail error found

/-- Pairing loop of executePredicate over the left and right operand
sequences: every pair is checked with the callback; after the loops,
found (only reachable in strict mode) gives true, error (only reachable
in lax mode) gives unknown, otherwise false. -/
def executePredicatePairs (strictAbsenseOfErrors : Bool)
    (exec : JsonbValue → JsonbValue → JsonPathBool) :
    List JsonbValue → List JsonbValue → Bool → Bool → JsonPathBool
  | [], _, error, found =>
      if found then .jpbTrue else if error then .jpbUnknown else .jpbFalse
  | lval :: ltail, rseq, error, found =>
    match execPredicateRow strictAbsenseOfErrors exec lval rseq error found with
    | .inl r => r
    | .inr (error2, found2) =>
        executePredicatePairs strictAbsenseOfErrors exec ltail rseq error2 found2

mutual
/-- Path-item node (JsonPathItem): the node kinds of the compiled path
tree that the embedded executor covers, each carrying its next-in-chain
(jspGetNext / jspHasNext).  Boolean item kinds are grouped into
jpiBoolExpr whose payload is a predicate node. -/
inductive JsonPathItem where
  | jpiRoot (next : Option JsonPathItem)
  | jpiCurrent (next : Option JsonPathItem)
  | jpiKey (key : String) (next : Option JsonPathItem)
  | jpiAnyArray (next : Option JsonPathItem)
  | jpiFilter (pred : JsonPathPred) (next : Option JsonPathItem)
  | jpiNull (next : Option JsonPathItem)
  | jpiBool (b : Bool) (next : Option JsonPathItem)
  | jpiNumeric (n : Rat) (next : Option JsonPathItem)
  | jpiString (s : String) (next : Option JsonPathItem)
  | jpiBoolExpr (pred : JsonPathPred) (next : Option JsonPathItem)

/-- Boolean path-item node: the kinds executeBoolItem dispatches on
(like_regex is omitted: regex compilation is an external collaborator). -/
inductive JsonPathPred where
  | jpiAnd (larg rarg : JsonPathPred)
  | jpiOr (larg rarg : JsonPathPred)
  | jpiNot (arg : JsonPathPred)
  | jpiIsUnknown (arg : JsonPathPred)
  | jpiCmpPred (op : CmpOp) (larg rarg : JsonPathItem)
  | jpiStartsWith (larg rarg : JsonPathItem)
  | jpiExists (arg : JsonPathItem)
end

/-- findJsonbValueFromContainer on an object container: key lookup
(jsonb object keys are unique). -/
def findObjectField (fields : List (String × JsonbValue)) (k : String) :
    Option JsonbValue :=
  (fields.find? (fun f => f.1 == k)).map (fun f => f.2)

/-- Evaluation context (JsonPathExecContext) restricted to the fields
the embedded node kinds read: the mode flags, the root item for $ and
the stack of current items for @.  baseObject and the id counter belong
to .keyvalue(), modelled separately; innermostArraySize belongs to the
array-subscript/LAST handlers, modelled separately; throwErrors is
immaterial here because errors are returned as statuses. -/
structure JsonPathExecContext where
  laxMode : Bool
  ignoreStructuralErrors : Bool
  root : JsonbValue
  stack : List JsonbValue

/-- Predicate callbacks passed to executePredicate, defunctionalized:
executeComparison with its operator, or executeStartsWith. -/
inductive PredExecOp where
  | comparison (op : CmpOp)
  | startsWithOp

/-- Resolve a defunctionalized predicate callback. -/
def predExecFn : PredExecOp → JsonbValue → JsonbValue → JsonPathBool
  | .comparison op => compareItems op
  | .startsWithOp => executeStartsWith

/-- One pending call of the mutually recursive C executor functions.
Each constructor corresponds to one C function (the arguments are that
function's arguments); found-pointer presence is the hasFound flag. -/
inductive ExecTask where
  | optUnwrapTarget (jsp : JsonPathItem) (jb : JsonbValue)
      (hasFound unwrap : Bool)
  | unwrapTargetArray (jsp : Option JsonPathItem) (jb : JsonbValue)
      (hasFound unwrapElements : Bool)
  | anyShallow (jsp : Option JsonPathItem) (elems : List JsonbValue)
      (hasFound unwrapNext : Bool) (res : JsonPathExecResult)
  | nextItem (next : Option JsonPathItem) (v : JsonbValue) (hasFound : Bool)
  | optUnwrapResult (jsp : JsonPathItem) (jb : JsonbValue)
      (unwrap hasFound : Bool)
  | boolItem (pred : JsonPathPred) (jb : JsonbValue)
  | predicateItems (larg rarg : JsonPathItem) (unwrapRightArg : Bool)
      (pexec : PredExecOp) (jb : JsonbValue)

/-- Result of one executor call: an execution status with the sequence
appended to the found list, or a tri-state predicate value. -/
inductive ExecRes where
  | items (res : JsonPathExecResult) (found : List JsonbValue)
  | tri (b : JsonPathBool)

/-- Read an ExecRes as status and appended items (the item-returning
tasks always produce this shape). -/
def ExecRes.toItems : ExecRes → JsonPathExecResult × List JsonbValue
  | .items r out => (r, out)
  | .tri _ => (.jperError, [])

/-- Read an ExecRes as a tri-state value (the boolean tasks always
produce this shape). -/
def ExecRes.toTri : ExecRes → JsonPathBool
  | .tri b => b
  | .items _ _ => .jpbUnknown

/-- The executor: one step of the mutually recursive C functions,
structurally recursive on a fuel that decreases at every nested call
(the C recursion-depth guard check_stack_depth; its exhaustion, which
aborts the query, is modelled as an error result).  The arms translate,
in order: executeItemOptUnwrapTarget (dispatch over the embedded node
kinds), executeItemUnwrapTargetArray, executeAnyItem restricted to
level = first = last = 1 (the only instance reachable from the embedded
kinds), executeNextItem, executeItemOptUnwrapResult, executeBoolItem
and executePredicate.  The baseObject save/restore of the jpiRoot and
scalar cases is omitted because .keyvalue(), its only reader, is
modelled separately. -/
def runExec : Nat → JsonPathExecContext → ExecTask → ExecRes
  | 0, _, t =>
    match t with
    | .boolItem _ _ => .tri .jpbUnknown
    | .predicateItems _ _ _ _ _ => .tri .jpbUnknown
    | _ => .items .jperError []
  | fuel + 1, cxt, t =>
    match t with
    | .optUnwrapTarget jsp jb hasFound unwrap =>
      match jsp with
      | .jpiBoolExpr p next =>
          let st := (runExec fuel cxt (.boolItem p jb)).toTri
          if next.isNone ∧ hasFound = false then .items .jperOk []
          else
            let v : JsonbValue :=
              match st with
              | .jpbUnknown => .null
              | .jpbTrue => .bool true
              | .jpbFalse => .bool false
            runExec fuel cxt (.nextItem next v hasFound)
      | .jpiKey k next =>
          match JsonbType jb with
          | .tObject =>
              match jb with
              | .obj fields =>
                  match findObjectField fields k with
                  | some v => runExec fuel cxt (.nextItem next v hasFound)
                  | none =>
                      if cxt.ignoreStructuralErrors = false then
                        .items .jperError []
                      else .items .jperNotFound []
              | _ => .items .jperError []
          | .tArray =>
              if unwrap then
                runExec fuel cxt (.unwrapTargetArray (some jsp) jb hasFound false)
              else if cxt.ignoreStructuralErrors = false then
                .items .jperError []
              else .items .jperNotFound []
          | _ =>
              if cxt.ignoreStructuralErrors = false then .items .jperError []
              else .items .jperNotFound []
      | .jpiRoot next =>
          runExec fuel cxt (.nextItem next cxt.root hasFound)
      | .jpiCurrent next =>
          runExec fuel cxt (.nextItem next (cxt.stack.headD cxt.root) hasFound)
      | .jpiAnyArray next =>
          match JsonbType jb with
          | .tArray =>
              runExec fuel cxt (.unwrapTargetArray next jb hasFound cxt.laxMode)
          | _ =>
              if cxt.laxMode then runExec fuel cxt (.nextItem next jb hasFound)
              else if cxt.ignoreStructuralErrors = false then
                .items .jperError []
              else .items .jperNotFound []
      | .jpiFilter p next =>
          if unwrap = true ∧ JsonbType jb = .tArray then
            runExec fuel cxt (.unwrapTargetArray (some jsp) jb hasFound false)
          else
            let cxt2 := { cxt with stack := jb :: cxt.stack }
            let st := (runExec fuel cxt2 (.boolItem p jb)).toTri
            if st ≠ .jpbTrue then .items .jperNotFound []
            else runExec fuel cxt (.nextItem next jb hasFound)
      | .jpiNull next =>
          if next.isNone ∧ hasFound = false then .items .jperOk []
          else runExec fuel cxt (.nextItem next .null hasFound)
      | .jpiBool b next =>
          if next.isNone ∧ hasFound = false then .items .jperOk []
          else runExec fuel cxt (.nextItem next (.bool b) hasFound)
      | .jpiNumeric n next =>
          if next.isNone ∧ hasFound = false then .items .jperOk []
          else runExec fuel cxt (.nextItem next (.num n) hasFound)
      | .jpiString s next =>
          if next.isNone ∧ hasFound = false then .items .jperOk []
          else runExec fuel cxt (.nextItem next (.str s) hasFound)
    | .unwrapTargetArray jsp jb hasFound unwrapElements =>
      match jb with
      | .arr elems =>
          runExec fuel cxt
            (.anyShallow jsp elems hasFound unwrapElements .jperNotFound)
      | _ => .items .jperError []
    | .anyShallow jsp elems hasFound unwrapNext res =>
      match elems with
      | [] => .items res []
      | v :: rest =>
        match jsp with
        | none =>
            if hasFound then
              match runExec fuel cxt (.anyShallow none rest hasFound unwrapNext res) with
              | .items r out => .items r (v :: out)
              | e => e
            else .items .jperOk []
        | some jspv =>
            let ro := (runExec fuel cxt (.optUnwrapTarget jspv v hasFound unwrapNext)).toItems
            if ro.1 = .jperError then .items ro.1 ro.2
            else if ro.1 = .jperOk ∧ hasFound = false then .items ro.1 ro.2
            else
              match runExec fuel cxt (.anyShallow jsp rest hasFound unwrapNext ro.1) with
              | .items r2 out2 => .items r2 (ro.2 ++ out2)
              | e => e
    | .nextItem next v hasFound =>
      match next with
      | some n => runExec fuel cxt (.optUnwrapTarget n v hasFound cxt.laxMode)
      | none => .items .jperOk (if hasFound then [v] else [])
    | .optUnwrapResult jsp jb unwrap hasFound =>
      if unwrap = true ∧ cxt.laxMode = true then
        let ro := (runExec fuel cxt (.optUnwrapTarget jsp jb true cxt.laxMode)).toItems
        if ro.1 = .jperError then .items ro.1 []
        else
          .items .jperOk
            (ro.2.foldr
              (fun item acc =>
                (match item with
                 | .arr es => es
                 | other => [other]) ++ acc)
              [])
      else runExec fuel cxt (.optUnwrapTarget jsp jb hasFound cxt.laxMode)
    | .boolItem p jb =>
      match p with
      | .jpiAnd l r =>
          let res := (runExec fuel cxt (.boolItem l jb)).toTri
          if res = .jpbFalse then .tri .jpbFalse
          else
            let res2 := (runExec fuel cxt (.boolItem r jb)).toTri
            .tri (if res2 = .jpbTrue then res else res2)
      | .jpiOr l r =>
          let res := (runExec fuel cxt (.boolItem l jb)).toTri
          if res = .jpbTrue then .tri .jpbTrue
          else
            let res2 := (runExec fuel cxt (.boolItem r jb)).toTri
            .tri (if res2 = .jpbFalse then res else res2)
      | .jpiNot a =>
          let res := (runExec fuel cxt (.boolItem a jb)).toTri
          if res = .jpbUnknown then .tri .jpbUnknown
          else .tri (if res = .jpbTrue then .jpbFalse else .jpbTrue)
      | .jpiIsUnknown a =>
          let res := (runExec fuel cxt (.boolItem a jb)).toTri
          .tri (if res = .jpbUnknown then .jpbTrue else .jpbFalse)
      | .jpiCmpPred op larg rarg =>
          runExec fuel cxt (.predicateItems larg rarg true (.comparison op) jb)
      | .jpiStartsWith larg rarg =>
          runExec fuel cxt (.predicateItems larg rarg false .startsWithOp jb)
      | .jpiExists a =>
          if cxt.laxMode = false then
            let ro := (runExec fuel cxt (.optUnwrapResult a jb false true)).toItems
            if ro.1 = .jperError then .tri .jpbUnknown
            else .tri (if ro.2.isEmpty then .jpbFalse else .jpbTrue)
          else
            let ro := (runExec fuel cxt (.optUnwrapResult a jb false false)).toItems
            if ro.1 = .jperError then .tri .jpbUnknown
            else .tri (if ro.1 = .jperOk then .jpbTrue else .jpbFalse)
    | .predicateItems larg rarg unwrapRightArg pexec jb =>
      let lo := (runExec fuel cxt (.optUnwrapResult larg jb true true)).toItems
      if lo.1 = .jperError then .tri .jpbUnknown
      else
        let ro := (runExec fuel cxt (.optUnwrapResult rarg jb unwrapRightArg true)).toItems
        if ro.1 = .jperError then .tri .jpbUnknown
        else
          .tri (executePredicatePairs (!cxt.laxMode) (predExecFn pexec)
                  lo.2 ro.2 false false)

/-- executeItemOptUnwrapTarget as a function: status and items appended
to the found list. -/
def executeItemOptUnwrapTarget (fuel : Nat) (cxt : JsonPathExecContext)
    (jsp : JsonPathItem) (jb : JsonbValue) (hasFound unwrap : Bool) :
    JsonPathExecResult × List JsonbValue :=
  (runExec fuel cxt (.optUnwrapTarget jsp jb hasFound unwrap)).toItems

/-- executeItem: execute jsonpath with automatic unwrapping of the
current item in lax mode. -/
def executeItem (fuel : Nat) (cxt : JsonPathExecContext)
    (jsp : JsonPathItem) (jb : JsonbValue) (hasFound : Bool) :
    JsonPathExecResult × List JsonbValue :=
  (runExec fuel cxt (.optUnwrapTarget jsp jb hasFound cxt.laxMode)).toItems

/-- executeBoolItem as a function returning the tri-state value. -/
def executeBoolItem (fuel : Nat) (cxt : JsonPathExecContext)
    (p : JsonPathPred) (jb : JsonbValue) : JsonPathBool :=
  (runExec fuel cxt (.boolItem p jb)).toTri

/-- executeJsonPath: top-level interface; the context is initialized
from the path header mode, the root item is pushed as initial @, and in
strict mode an existence probe first computes the full sequence to
observe all errors. -/
def executeJsonPath (fuel : Nat) (laxMode : Bool) (path : JsonPathItem)
    (doc : JsonbValue) (hasResult : Bool) :
    JsonPathExecResult × List JsonbValue :=
  let cxt : JsonPathExecContext :=
    { laxMode := laxMode
      ignoreStructuralErrors := laxMode
      root := doc
      stack := [doc] }
  if laxMode = false ∧ hasResult = false then
    let ro := executeItem fuel cxt path doc true
    if ro.1 = .jperError then (ro.1, [])
    else ((if ro.2.isEmpty then .jperNotFound else .jperOk), [])
  else executeItem fuel cxt path doc hasResult

/-- Base object information for .keyvalue() (JsonBaseObjectInfo): the
base container, represented by its byte offset inside the document, and
its id. -/
structure JsonBaseObjectInfo where
  off : Int
  id : Int

/-- One object emitted by .keyvalue(): the key, value and id fields of
the constructed object. -/
structure KVEntry where
  key : String
  value : JsonbValue
  id : Int

/-- executeKeyValueMethod: the target must be a binary object container
(else objectNotFound, an error here), an empty object yields notFound,
and otherwise one object per key-value pair is emitted in iteration
order.  The id value is computed once, before the pair loop, from the
base object id and the byte offset of the target container relative to
the base container (pointers are modelled by offsets, so the C pointer
difference jbc - baseObject.jbc becomes jbOff - baseObject.off), and
the same idval is pushed into every emitted object.  The next-item
chaining and the fresh base-object id assigned to each emitted object
(setBaseObject with lastGeneratedObjectId++) are not modelled: emitted
objects are appended to the found list directly. -/
def executeKeyValueMethod (baseObject : JsonBaseObjectInfo)
    (jb : JsonbValue) (jbOff : Int) :
    JsonPathExecResult × List KVEntry :=
  match jb with
  | .obj fields =>
      if fields.length = 0 then (.jperNotFound, [])
      else
        let id : Int := jbOff - baseObject.off + baseObject.id * 10000000000
        (.jperOk, fields.map (fun f => ⟨f.1, f.2, id⟩))
  | _ => (.jperError, [])

/-- How an execution error reaches the caller: raised out-of-band
(ereport / elog with throwErrors true) or returned as jperError. -/
inductive ErrorDelivery where
  | thrown
  | statusError
deriving DecidableEq

/-- The RETURN_ERROR macro: throw when jspThrowErrors(cxt), otherwise
return jperError. -/
def RETURN_ERROR_delivery (throwErrors : Bool) : ErrorDelivery :=
  if throwErrors then .thrown else .statusError

/-- Outcome of the jpiLast case: an internal error raised by elog
(which happens regardless of throwErrors), or normal completion with
the optionally produced numeric item handed to executeNextItem. -/
inductive JpiLastResult where
  | raisedError (msg : String)
  | completed (res : JsonPathExecResult) (emitted : Option Int)
deriving DecidableEq

/-- The jpiLast case of executeItemOptUnwrapTarget: outside of any
array subscript context (innermostArraySize below zero) the code calls
elog(ERROR, ...), an unconditional out-of-band raise that does not
consult throwErrors; otherwise in an existence probe with no next item
it returns jperOk directly, and else it builds the numeric item
lastArraySize - 1 (chaining through executeNextItem is abstracted to
the emitted value). -/
def executeLast (_throwErrors : Bool) (innermostArraySize : Int)
    (hasNext hasFound : Bool) : JpiLastResult :=
  if innermostArraySize < 0 then
    .raisedError ("evaluating jsonpath LAST outside of array subscript")
  else if hasNext = false ∧ hasFound = false then .completed .jperOk none
  else .completed .jperOk (some (innermostArraySize - 1))

/-- Error codes surfaced by the array subscript handler. -/
inductive JsonPathErrCode where
  | invalidSubscript
  | arrayNotFound
deriving DecidableEq

/-- Outcome of the jpiIndexArray case: an error with its code and
delivery, or completion with the final status and emitted elements. -/
inductive SubscriptOutcome where
  | err (code : JsonPathErrCode) (d : ErrorDelivery)
  | done (res : JsonPathExecResult) (emitted : List JsonbValue)

/-- Subscript loop of the jpiIndexArray case, over the already
evaluated (index_from, index_to) bounds (getArrayIndex evaluation of
the subscript expressions is the caller's part).  Translates the loop
body: the out-of-bounds check guarded by ignoreStructuralErrors, the
clamping of index_from to 0 and index_to to size - 1, and the inner
ascending emission loop (the C for-loop over index, with the NULL
element check), realized as a map over the index range; the handler is
modelled at a terminal path node with a found list, so executeNextItem
appends each element and yields jperOk.  The res accumulator mirrors
the C res variable that the last processed subscript leaves behind. -/
def executeIndexArrayLoop (ignoreStructuralErrors throwErrors : Bool)
    (size : Int) (elemsEff : List JsonbValue) (subs : List (Int × Int))
    (res : JsonPathExecResult) : SubscriptOutcome :=
  match subs with
  | [] => .done res []
  | sub :: rest =>
    if ignoreStructuralErrors = false ∧
        (sub.1 < 0 ∨ sub.1 > sub.2 ∨ sub.2 ≥ size) then
      .err .invalidSubscript (RETURN_ERROR_delivery throwErrors)
    else
      let index_from := if sub.1 < 0 then 0 else sub.1
      let index_to := if sub.2 ≥ size then size - 1 else sub.2
      let emitted :=
        (List.range (index_to + 1 - index_from).toNat).filterMap
          (fun k => elemsEff[index_from.toNat + k]?)
      let res2 := if emitted.isEmpty then JsonPathExecResult.jperNotFound
                  else .jperOk
      match executeIndexArrayLoop ignoreStructuralErrors throwErrors size
              elemsEff rest res2 with
      | .done r out => .done r (emitted ++ out)
      | e => e

/-- The jpiIndexArray case of executeItemOptUnwrapTarget: an array
target iterates its elements; a non-array target with autoWrap is the
singleton case (size 1, the item itself); otherwise arrayNotFound
unless structural errors are ignored.  innermostArraySize bookkeeping
for LAST is not observable here and omitted. -/
def executeIndexArray (autoWrap ignoreStructuralErrors throwErrors : Bool)
    (jb : JsonbValue) (subs : List (Int × Int)) : SubscriptOutcome :=
  match jb with
  | .arr elems =>
      executeIndexArrayLoop ignoreStructuralErrors throwErrors
        (elems.length : Int) elems subs .jperNotFound
  | _ =>
      if autoWrap then
        executeIndexArrayLoop ignoreStructuralErrors throwErrors 1 [jb] subs
          .jperNotFound
      else if ignoreStructuralErrors = false then
        .err .arrayNotFound (RETURN_ERROR_delivery throwErrors)
      else .done .jperNotFound []

/-- The fixed list of ISO datetime templates tried by .datetime()
without a format argument (fmt_str of the jpiDatetime case), in source
order. -/
def datetimeFmtStrs : List String :=
  ["yyyy-mm-dd HH24:MI:SS TZH:TZM",
   "yyyy-mm-dd HH24:MI:SS TZH",
   "yyyy-mm-dd HH24:MI:SS",
   "yyyy-mm-dd",
   "HH24:MI:SS TZH:TZM",
   "HH24:MI:SS TZH",
   "HH24:MI:SS"]

/-- Outcome of the no-format .datetime() recognition: the first
successfully parsed template with its parse result, or the
invalidArgumentForDatetime error carrying the errhint text. -/
inductive DatetimeNoFmtResult (α : Type) where
  | parsed (fmt : String) (v : α)
  | errInvalidArgumentForDatetime (hint : String)
deriving DecidableEq

/-- Loop of the jpiDatetime ISO recognition: try each template in order
with tryToParseDatetime (the external datetime parser, abstracted as an
oracle from the template to an optional parse result for the fixed
input string); the first success wins and the loop stops. -/
def tryIsoFormatsLoop {α : Type} (tryParse : String → Option α) :
    List String → DatetimeNoFmtResult α
  | [] =>
      .errInvalidArgumentForDatetime
        ("use datetime template argument for explicit format specification")
  | fmt :: rest =>
    match tryParse fmt with
    | some v => .parsed fmt v
    | none => tryIsoFormatsLoop tryParse rest

/-- The no-format branch of the jpiDatetime case (res == jperNotFound
after the template-argument part): try the fixed ISO template list. -/
def datetimeTryIsoFormats {α : Type} (tryParse : String → Option α) :
    DatetimeNoFmtResult α :=
  tryIsoFormatsLoop tryParse datetimeFmtStrs

/-- The silent flag of executeUserFunc, the common code of the
jsonb_path_exists / jsonb_path_match / jsonb_path_query /
jsonb_path_query_array / jsonb_path_query_first user functions: silent
is initialized to true and only overwritten by the fourth argument when
the function is called with four arguments. -/
def executeUserFuncSilent (nargs : Nat) (silentArg : Bool) : Bool :=
  if nargs = 4 then silentArg else true

/-- The throwErrors argument executeUserFunc passes to executeJsonPath:
the negated silent flag. -/
def executeUserFuncThrowErrors (nargs : Nat) (silentArg : Bool) : Bool :=
  !(executeUserFuncSilent nargs silentArg)

/-- Top of jsonb_path_exists: a suppressed error status becomes SQL
NULL, otherwise the boolean says whether the result was non-empty. -/
def jsonbPathExistsResult (res : JsonPathExecResult) : Option Bool :=
  if res = .jperError then none else some (res = .jperOk)

/-- Kleene three-valued conjunction given by its truth table; the
reference semantics against which the sequential && code is checked. -/
def and3 : JsonPathBool → JsonPathBool → JsonPathBool
  | .jpbFalse, _ => .jpbFalse
  | _, .jpbFalse => .jpbFalse
  | .jpbTrue, .jpbTrue => .jpbTrue
  | _, _ => .jpbUnknown

/-- Specification-side description of what one lax subscript pair
emits: index_from clamped to 0, index_to clamped to size - 1, and the
elements of the clamped range in ascending index order, written as a
contiguous slice of the array. -/
def laxSliceSpec (elems : List JsonbValue) (sub : Int × Int) :
    List JsonbValue :=
  let lo := max sub.1 0
  let hi := min sub.2 ((elems.length : Int) - 1)
  (elems.drop lo.toNat).take (hi + 1 - lo).toNat

/-- The document of end-to-end scenario 7: the array [1, "two", 3]. -/
def docOneTwoThree : JsonbValue := .arr [.num 1, .str "two", .num 3]

/-- The compiled path of scenario 7: $[*] ? (@ > 0). -/
def pathFilterGtZero : JsonPathItem :=
  .jpiRoot (some (.jpiAnyArray (some (.jpiFilter
    (.jpiCmpPred .jpiGreater (.jpiCurrent none) (.jpiNumeric 0 none))
    none))))

/-- A parse oracle for the C7 witness: only the date-only template
succeeds. -/
def tryParseDateOnly : String → Option Nat :=
  fun s => if s = "yyyy-mm-dd" then some 0 else none

/-- For C8: one operand null and the other non-null makes the raw item
types differ, with a null side present. -/
theorem jbvTypeOf_null_iff (a : JsonbValue) :
    jbvTypeOf a = .jbvNull ↔ a = .null := by
  cases a <;> simp [jbvTypeOf]

/-- C8: for every comparison of two items where exactly one item is
null and the other is non-null, != returns true and every other
comparison operator returns false, never unknown. -/
theorem compare_null_nonnull_C8 (op : CmpOp) (a b : JsonbValue)
    (h : (a = .null ∧ b ≠ .null) ∨ (a ≠ .null ∧ b = .null)) :
    compareItems op a b =
      (if op = .jpiNotEqual then .jpbTrue else .jpbFalse) := by
  rcases h with ⟨rfl, hb⟩ | ⟨ha, rfl⟩
  · cases b <;> simp_all [compareItems, jbvTypeOf]
  · cases a <;> simp_all [compareItems, jbvTypeOf]

/-- Witness for C8 at op <, items null and number 1. -/
theorem compare_null_nonnull_C8_witness :
    ((JsonbValue.null = JsonbValue.null ∧ JsonbValue.num 1 ≠ JsonbValue.null)
      ∧ compareItems .jpiLess .null (.num 1) = .jpbFalse) :=
  ⟨⟨rfl, nofun⟩,
   by simpa using compare_null_nonnull_C8 .jpiLess .null (.num 1)
        (Or.inl ⟨rfl, nofun⟩)⟩

/-- Reading a tri-state out of a two-branch conditional commutes with
the conditional. -/
theorem toTri_tri_ite (c : Prop) [Decidable c] (a b : JsonPathBool) :
    (if c then ExecRes.tri a else ExecRes.tri b).toTri = if c then a else b := by
  split <;> rfl

/-- C9: double negation is the identity on predicate evaluation; each
executor step costs one unit of the recursion-depth budget, so the
doubly negated predicate is evaluated at a budget larger by two. -/
theorem not_involution_C9 (fuel : Nat) (cxt : JsonPathExecContext)
    (p : JsonPathPred) (jb : JsonbValue) :
    executeBoolItem (fuel + 2) cxt (.jpiNot (.jpiNot p)) jb =
      executeBoolItem fuel cxt p jb := by
  unfold executeBoolItem
  simp only [runExec, toTri_tri_ite]
  generalize (runExec fuel cxt (ExecTask.boolItem p jb)).toTri = x
  cases x <;> simp

/-- C3 counterexample: a predicate evaluating to unknown conjoined with
a predicate evaluating to false yields false, not unknown (the claim
asserts unknown && false is unknown). -/
theorem and_unknown_false_counterexample_C3 :
    executeBoolItem 10 ⟨false, false, .null, [.null]⟩
        (.jpiCmpPred .jpiGreater (.jpiNumeric 1 none) (.jpiString "a" none))
        .null = .jpbUnknown
    ∧ executeBoolItem 10 ⟨false, false, .null, [.null]⟩
        (.jpiCmpPred .jpiEqual (.jpiNumeric 1 none) (.jpiNumeric 2 none))
        .null = .jpbFalse
    ∧ executeBoolItem 10 ⟨false, false, .null, [.null]⟩
        (.jpiAnd
          (.jpiCmpPred .jpiGreater (.jpiNumeric 1 none) (.jpiString "a" none))
          (.jpiCmpPred .jpiEqual (.jpiNumeric 1 none) (.jpiNumeric 2 none)))
        .null = .jpbFalse :=
  ⟨rfl, rfl, rfl⟩

/-- C3 amended: && returns false when the left side is false; otherwise
it returns the left value when the right side is true and the right
value when it is false or unknown — that is, exactly Kleene three-valued
conjunction, under which unknown && false is false. -/
theorem and_is_kleene_C3 (fuel : Nat) (cxt : JsonPathExecContext)
    (l r : JsonPathPred) (jb : JsonbValue) :
    executeBoolItem (fuel + 1) cxt (.jpiAnd l r) jb =
      and3 (executeBoolItem fuel cxt l jb) (executeBoolItem fuel cxt r jb) := by
  unfold executeBoolItem
  simp only [runExec]
  cases hl : runExec fuel cxt (ExecTask.boolItem l jb) with
  | items r1 out1 =>
      cases hr : runExec fuel cxt (ExecTask.boolItem r jb) with
      | items r2 out2 => simp [ExecRes.toTri, and3, hl, hr]
      | tri b2 => cases b2 <;> simp [ExecRes.toTri, and3, hl, hr]
  | tri b1 =>
      cases hr : runExec fuel cxt (ExecTask.boolItem r jb) with
      | items r2 out2 => cases b1 <;> simp [ExecRes.toTri, and3, hl, hr]
      | tri b2 => cases b1 <;> cases b2 <;> simp [ExecRes.toTri, and3, hl, hr]

/-- C4 counterexample: with throwErrors false, evaluating LAST outside
of any array subscript context raises an internal error out-of-band
instead of returning the error status the claim promises. -/
theorem last_outside_subscript_counterexample_C4 :
    executeLast false (-1) true true =
      .raisedError ("evaluating jsonpath LAST outside of array subscript") :=
  rfl

/-- C4 amended: errors routed through RETURN_ERROR are converted to the
returned status error whenever throwErrors is false, but the LAST item
outside of any array subscript context raises an internal error
unconditionally, regardless of throwErrors. -/
theorem return_error_vs_last_raise_C4 (throwErrors : Bool) (size : Int)
    (hasNext hasFound : Bool) (h : size < 0) :
    RETURN_ERROR_delivery false = .statusError ∧
    executeLast throwErrors size hasNext hasFound =
      .raisedError ("evaluating jsonpath LAST outside of array subscript") := by
  refine ⟨rfl, ?_⟩
  unfold executeLast
  simp [h]

/-- Witness for C4 at throwErrors false and subscript context absent. -/
theorem return_error_vs_last_raise_C4_witness :
    ((-1 : Int) < 0) ∧
    (RETURN_ERROR_delivery false = .statusError ∧
     executeLast false (-1) true true =
       .raisedError ("evaluating jsonpath LAST outside of array subscript")) :=
  ⟨by decide, return_error_vs_last_raise_C4 false (-1) true true (by decide)⟩

/-- C10: in the two-argument form the silent flag defaults to true, so
executeUserFunc calls executeJsonPath with throwErrors false, and a
suppressed error surfaces as SQL NULL from jsonb_path_exists. -/
theorem silent_default_true_C10 : ∀ silentArg : Bool,
    executeUserFuncSilent 2 silentArg = true ∧
    executeUserFuncThrowErrors 2 silentArg = false ∧
    jsonbPathExistsResult .jperError = none := by
  decide

/-- C1 counterexample: for the object with keys a and b (the container
of doc k at offset 5 from the root base object of id 0), .keyvalue()
emits both objects with the same id, so the ids are not pairwise
distinct. -/
theorem keyvalue_ids_equal_counterexample_C1 :
    ((executeKeyValueMethod ⟨0, 0⟩
        (.obj [("a", .num 1), ("b", .num 2)]) 5).2.map KVEntry.id = [5, 5])
    ∧ ¬ ([5, 5] : List Int).Pairwise (fun x y => x ≠ y) := by
  refine ⟨rfl, ?_⟩
  decide

/-- C1 amended: every object emitted by a single .keyvalue() call
carries one and the same id, equal to 10^10 times the base object id
plus the byte offset of the container inside the base object; in
particular any two emitted ids are equal, and each is congruent to that
offset modulo 10^10. -/
theorem keyvalue_id_formula_C1 (base : JsonBaseObjectInfo)
    (fields : List (String × JsonbValue)) (off : Int) (e1 e2 : KVEntry)
    (h1 : e1 ∈ (executeKeyValueMethod base (.obj fields) off).2)
    (h2 : e2 ∈ (executeKeyValueMethod base (.obj fields) off).2) :
    e1.id = base.id * 10000000000 + (off - base.off) ∧
    e1.id = e2.id ∧
    e1.id % 10000000000 = (off - base.off) % 10000000000 := by
  by_cases hf : fields.length = 0 <;>
    simp [executeKeyValueMethod, hf] at h1 h2
  obtain ⟨a1, b1, -, rfl⟩ := h1
  obtain ⟨a2, b2, -, rfl⟩ := h2
  refine ⟨?_, rfl, ?_⟩
  · show off - base.off + base.id * 10000000000
        = base.id * 10000000000 + (off - base.off)
    omega
  · show (off - base.off + base.id * 10000000000) % 10000000000
        = (off - base.off) % 10000000000
    omega

/-- Witness for C1 at the doc of scenario 6, container offset 5. -/
theorem keyvalue_id_formula_C1_witness :
    ((⟨"a", JsonbValue.num 1, 5⟩ : KVEntry).id
        = (0 : Int) * 10000000000 + (5 - 0)) ∧
    ((⟨"a", JsonbValue.num 1, 5⟩ : KVEntry).id
        = (⟨"b", JsonbValue.num 2, 5⟩ : KVEntry).id) ∧
    ((⟨"a", JsonbValue.num 1, 5⟩ : KVEntry).id % 10000000000
        = ((5 : Int) - 0) % 10000000000) :=
  keyvalue_id_formula_C1 ⟨0, 0⟩ [("a", .num 1), ("b", .num 2)] 5
    ⟨"a", .num 1, 5⟩ ⟨"b", .num 2, 5⟩
    (List.Mem.head _) (List.Mem.tail _ (List.Mem.head _))

/-- C2 counterexample: evaluating $[*] ? (@ > 0) over [1, "two", 3] in
strict mode completes with status jperOk, not with the error the claim
asserts: the pair "two" > 0 makes the filter predicate unknown, which
merely skips the item. -/
theorem strict_filter_no_error_counterexample_C2 :
    (executeJsonPath 100 false pathFilterGtZero docOneTwoThree true).1 =
      .jperOk :=
  rfl

/-- C2 amended: over [1, "two", 3] the path $[*] ? (@ > 0) returns the
sequence [1, 3] in strict mode as well as in lax mode, without error:
inside a filter the unknown comparison result only filters the item
out. -/
theorem filter_unknown_skips_item_C2 :
    executeJsonPath 100 false pathFilterGtZero docOneTwoThree true =
      (.jperOk, [.num 1, .num 3]) ∧
    executeJsonPath 100 true pathFilterGtZero docOneTwoThree true =
      (.jperOk, [.num 1, .num 3]) :=
  ⟨rfl, rfl⟩

/-- If the parse oracle rejects every template of a list, the ISO
recognition loop over that list reports invalidArgumentForDatetime with
the template hint. -/
theorem tryIsoFormatsLoop_all_none {α : Type} (tryParse : String → Option α)
    (l : List String) (h : ∀ f ∈ l, tryParse f = none) :
    tryIsoFormatsLoop tryParse l =
      .errInvalidArgumentForDatetime
        ("use datetime template argument for explicit format specification") := by
  induction l with
  | nil => rfl
  | cons f rest ih =>
      have hf := h f (List.mem_cons_self f rest)
      simp only [tryIsoFormatsLoop, hf]
      exact ih (fun g hg => h g (List.mem_cons_of_mem f hg))

/-- If every template before f fails and f parses, the ISO recognition
loop stops at f with its parse result. -/
theorem tryIsoFormatsLoop_first_success {α : Type}
    (tryParse : String → Option α) (pre post : List String) (f : String)
    (v : α) (hpre : ∀ g ∈ pre, tryParse g = none) (hf : tryParse f = some v) :
    tryIsoFormatsLoop tryParse (pre ++ f :: post) = .parsed f v := by
  induction pre with
  | nil => simp [tryIsoFormatsLoop, hf]
  | cons g rest ih =>
      have hg := hpre g (List.mem_cons_self g rest)
      simp only [List.cons_append, tryIsoFormatsLoop, hg]
      exact ih (fun g2 hg2 => hpre g2 (List.mem_cons_of_mem g hg2))

/-- C7: .datetime() without a format argument tries exactly the seven
ISO templates in the fixed source order; the first template the parser
accepts determines the result, and if all seven fail the
invalidArgumentForDatetime error is raised with the hint to provide a
template. -/
theorem datetime_iso_template_list_C7 {α : Type}
    (tryParse : String → Option α) :
    datetimeFmtStrs =
      ["yyyy-mm-dd HH24:MI:SS TZH:TZM",
       "yyyy-mm-dd HH24:MI:SS TZH",
       "yyyy-mm-dd HH24:MI:SS",
       "yyyy-mm-dd",
       "HH24:MI:SS TZH:TZM",
       "HH24:MI:SS TZH",
       "HH24:MI:SS"] ∧
    ((∀ f ∈ datetimeFmtStrs, tryParse f = none) →
      datetimeTryIsoFormats tryParse =
        .errInvalidArgumentForDatetime
          ("use datetime template argument for explicit format specification")) ∧
    (∀ (pre post : List String) (f : String) (v : α),
      datetimeFmtStrs = pre ++ f :: post →
      (∀ g ∈ pre, tryParse g = none) →
      tryParse f = some v →
      datetimeTryIsoFormats tryParse = .parsed f v) := by
  refine ⟨rfl, ?_, ?_⟩
  · intro h
    exact tryIsoFormatsLoop_all_none tryParse datetimeFmtStrs h
  · intro pre post f v hsplit hpre hf
    unfold datetimeTryIsoFormats
    rw [hsplit]
    exact tryIsoFormatsLoop_first_success tryParse pre post f v hpre hf

/-- Witness for C7: with an input recognized only by the date template,
the first three templates fail and the loop stops at yyyy-mm-dd. -/
theorem datetime_iso_template_list_C7_witness :
    ((∀ g ∈ ["yyyy-mm-dd HH24:MI:SS TZH:TZM",
             "yyyy-mm-dd HH24:MI:SS TZH",
             "yyyy-mm-dd HH24:MI:SS"], tryParseDateOnly g = none) ∧
      tryParseDateOnly "yyyy-mm-dd" = some 0) ∧
    datetimeTryIsoFormats tryParseDateOnly = .parsed ("yyyy-mm-dd") 0 :=
  ⟨⟨by decide, rfl⟩,
   (datetime_iso_template_list_C7 tryParseDateOnly).2.2
     ["yyyy-mm-dd HH24:MI:SS TZH:TZM",
      "yyyy-mm-dd HH24:MI:SS TZH",
      "yyyy-mm-dd HH24:MI:SS"]
     ["HH24:MI:SS TZH:TZM", "HH24:MI:SS TZH", "HH24:MI:SS"]
     "yyyy-mm-dd" 0 rfl (by decide) rfl⟩

/-- Characterization of the strict-mode inner row loop: the first
unknown pair answers unknown immediately; otherwise the error flag is
untouched and the found flag picks up any matching pair. -/
theorem execPredicateRow_strict (exec : JsonbValue → JsonbValue → JsonPathBool)
    (lval : JsonbValue) (rs : List JsonbValue) (error found : Bool) :
    execPredicateRow true exec lval rs error found =
      (if rs.any (fun r => exec lval r = .jpbUnknown) then
        Sum.inl JsonPathBool.jpbUnknown
      else
        Sum.inr (error, found || rs.any (fun r => exec lval r = .jpbTrue))) := by
  induction rs generalizing found with
  | nil => simp [execPredicateRow]
  | cons r rtail ih =>
      cases h : exec lval r <;>
        simp [execPredicateRow, h, ih, Bool.or_assoc]

/-- Characterization of the lax-mode inner row loop: the first matching
pair answers true immediately; otherwise the found flag is untouched
and the error flag picks up any unknown pair. -/
theorem execPredicateRow_lax (exec : JsonbValue → JsonbValue → JsonPathBool)
    (lval : JsonbValue) (rs : List JsonbValue) (error found : Bool) :
    execPredicateRow false exec lval rs error found =
      (if rs.any (fun r => exec lval r = .jpbTrue) then
        Sum.inl JsonPathBool.jpbTrue
      else
        Sum.inr (error || rs.any (fun r => exec lval r = .jpbUnknown), found)) := by
  induction rs generalizing error with
  | nil => simp [execPredicateRow]
  | cons r rtail ih =>
      cases h : exec lval r <;>
        simp [execPredicateRow, h, ih, Bool.or_assoc]

/-- Characterization of the strict-mode pairing loop with arbitrary
flag values: any unknown pair answers unknown, else any matching pair
(or an already set found flag) answers true, else the carried error
flag answers unknown, else false. -/
theorem executePredicatePairs_strict
    (exec : JsonbValue → JsonbValue → JsonPathBool)
    (ls rs : List JsonbValue) (error found : Bool) :
    executePredicatePairs true exec ls rs error found =
      (if ls.any (fun l => rs.any (fun r => exec l r = .jpbUnknown)) then
        JsonPathBool.jpbUnknown
      else if found || ls.any (fun l => rs.any (fun r => exec l r = .jpbTrue)) then
        JsonPathBool.jpbTrue
      else if error then JsonPathBool.jpbUnknown
      else JsonPathBool.jpbFalse) := by
  induction ls generalizing found with
  | nil => cases found <;> cases error <;> simp [executePredicatePairs]
  | cons l ltail ih =>
      simp only [executePredicatePairs, execPredicateRow_strict]
      by_cases hu : rs.any (fun r => exec l r = .jpbUnknown) <;>
        simp [hu, ih, Bool.or_assoc, List.any_cons]

/-- Characterization of the lax-mode pairing loop with arbitrary flag
values: any matching pair (or an already set found flag) answers true,
else any unknown pair or the carried error flag answers unknown, else
false. -/
theorem executePredicatePairs_lax
    (exec : JsonbValue → JsonbValue → JsonPathBool)
    (ls rs : List JsonbValue) (error found : Bool) :
    executePredicatePairs false exec ls rs error found =
      (if ls.any (fun l => rs.any (fun r => exec l r = .jpbTrue)) then
        JsonPathBool.jpbTrue
      else if found then JsonPathBool.jpbTrue
      else if error || ls.any (fun l => rs.any (fun r => exec l r = .jpbUnknown)) then
        JsonPathBool.jpbUnknown
      else JsonPathBool.jpbFalse) := by
  induction ls generalizing error with
  | nil => cases found <;> cases error <;> simp [executePredicatePairs]
  | cons l ltail ih =>
      simp only [executePredicatePairs, execPredicateRow_lax]
      by_cases ht : rs.any (fun r => exec l r = .jpbTrue) <;>
        simp [ht, ih, Bool.or_assoc, List.any_cons]

/-- C5: semantics of the comparison-predicate pairing over the left and
right operand sequences.  In strict mode (jspStrictAbsenseOfErrors)
the result is unknown as soon as any left/right pair compares to
unknown, else true iff some pair satisfies the comparison, else false.
In lax mode a satisfying pair answers true (the loop short-circuits on
the first one), and unknown is returned only when no pair was true and
at least one pair was unknown. -/
theorem predicate_pairs_semantics_C5
    (exec : JsonbValue → JsonbValue → JsonPathBool)
    (ls rs : List JsonbValue) :
    executePredicatePairs true exec ls rs false false =
      (if ls.any (fun l => rs.any (fun r => exec l r = .jpbUnknown)) then
        JsonPathBool.jpbUnknown
      else if ls.any (fun l => rs.any (fun r => exec l r = .jpbTrue)) then
        JsonPathBool.jpbTrue
      else JsonPathBool.jpbFalse) ∧
    executePredicatePairs false exec ls rs false false =
      (if ls.any (fun l => rs.any (fun r => exec l r = .jpbTrue)) then
        JsonPathBool.jpbTrue
      else if ls.any (fun l => rs.any (fun r => exec l r = .jpbUnknown)) then
        JsonPathBool.jpbUnknown
      else JsonPathBool.jpbFalse) := by
  refine ⟨?_, ?_⟩
  · rw [executePredicatePairs_strict]
    simp
  · rw [executePredicatePairs_lax]
    simp

/-- Collecting the in-range elements of an index window is the same as
slicing the list: dropping the window start and taking its width. -/
theorem filterMap_range_getElem {α : Type} (l : List α) (a c : Nat) :
    (List.range c).filterMap (fun k => l[a + k]?) = (l.drop a).take c := by
  induction c with
  | zero => simp
  | succ c ih =>
      rw [List.range_succ, List.filterMap_append, ih, List.take_succ]
      simp only [List.getElem?_drop]
      cases h : l[a + c]? <;> simp [List.filterMap_cons, h]

/-- The clamped slice of one subscript pair is a sublist of the array. -/
theorem laxSliceSpec_sublist (elems : List JsonbValue) (sub : Int × Int) :
    (laxSliceSpec elems sub).Sublist elems := by
  unfold laxSliceSpec
  exact (List.take_sublist _ _).trans (List.drop_sublist _ _)

/-- In lax mode (structural errors ignored) the subscript loop never
errors, and it emits exactly the concatenation of the clamped slices of
the subscript pairs, in the order the pairs are listed. -/
theorem executeIndexArrayLoop_lax (throwErrors : Bool)
    (elems : List JsonbValue) (subs : List (Int × Int)) :
    ∀ res : JsonPathExecResult, ∃ r,
      executeIndexArrayLoop true throwErrors (elems.length : Int) elems subs
          res =
        .done r (subs.flatMap (laxSliceSpec elems)) := by
  induction subs with
  | nil => intro res; exact ⟨res, rfl⟩
  | cons sub rest ih =>
      intro res
      have h1 : (if sub.1 < 0 then 0 else sub.1) = max sub.1 0 := by
        split <;> omega
      have h2 : (if sub.2 ≥ (elems.length : Int) then (elems.length : Int) - 1
                 else sub.2) = min sub.2 ((elems.length : Int) - 1) := by
        split <;> omega
      simp only [executeIndexArrayLoop, h1, h2, filterMap_range_getElem]
      have hguard : ¬(true = false ∧
          (sub.1 < 0 ∨ sub.1 > sub.2 ∨ sub.2 ≥ (elems.length : Int))) := by
        simp
      rw [if_neg hguard]
      obtain ⟨r, hr⟩ := ih
        (if ((elems.drop (max sub.1 0).toNat).take
              (min sub.2 ((elems.length : Int) - 1) + 1 - max sub.1 0).toNat).isEmpty
         then JsonPathExecResult.jperNotFound else .jperOk)
      rw [hr]
      exact ⟨r, by simp [laxSliceSpec]⟩

/-- With structural errors observed, the subscript loop raises
invalidSubscript (through RETURN_ERROR) as soon as any evaluated bound
is out of range. -/
theorem executeIndexArrayLoop_strict_err (throwErrors : Bool) (size : Int)
    (elems : List JsonbValue) (subs : List (Int × Int)) :
    ∀ res : JsonPathExecResult,
      (∃ sub ∈ subs, sub.1 < 0 ∨ sub.1 > sub.2 ∨ sub.2 ≥ size) →
      executeIndexArrayLoop false throwErrors size elems subs res =
        .err .invalidSubscript (RETURN_ERROR_delivery throwErrors) := by
  induction subs with
  | nil => intro res h; simp at h
  | cons sub rest ih =>
      intro res h
      by_cases hbad : sub.1 < 0 ∨ sub.1 > sub.2 ∨ sub.2 ≥ size
      · simp [executeIndexArrayLoop, hbad]
      · obtain ⟨s, hs, hsbad⟩ := h
        rcases List.mem_cons.mp hs with rfl | hs2
        · exact absurd hsbad hbad
        · simp only [executeIndexArrayLoop]
          rw [if_neg (by simp [hbad])]
          rw [ih _ ⟨s, hs2, hsbad⟩]

/-- C6: array subscript access over an array of length size with
already evaluated bounds.  With structural errors observed (strict
mode, autoWrap off), any bound with index_from < 0, index_from >
index_to or index_to >= size raises invalidSubscript through
RETURN_ERROR.  In lax mode (autoWrap and ignoreStructuralErrors on)
index_from is clamped to 0 and index_to to size - 1, empty ranges are
silently dropped, and the emitted elements are exactly the clamped
slices of the array concatenated in the declared subscript order, each
slice a sublist of the array in ascending index order. -/
theorem index_array_subscript_semantics_C6 (elems : List JsonbValue)
    (subs : List (Int × Int)) (throwErrors : Bool) :
    ((∃ sub ∈ subs, sub.1 < 0 ∨ sub.1 > sub.2 ∨ sub.2 ≥ (elems.length : Int)) →
      executeIndexArray false false throwErrors (.arr elems) subs =
        .err .invalidSubscript (RETURN_ERROR_delivery throwErrors)) ∧
    (∃ r, executeIndexArray true true throwErrors (.arr elems) subs =
        .done r (subs.flatMap (laxSliceSpec elems))) ∧
    (∀ sub ∈ subs, (laxSliceSpec elems sub).Sublist elems) := by
  refine ⟨?_, ?_, ?_⟩
  · intro h
    exact executeIndexArrayLoop_strict_err throwErrors (elems.length : Int)
      elems subs .jperNotFound h
  · exact executeIndexArrayLoop_lax throwErrors elems subs .jperNotFound
  · intro sub _
    exact laxSliceSpec_sublist elems sub

/-- Witness for C6 at the array [10, 20, 30] with the single subscript
range 0 to 5 (out of bounds, so strict errors and lax clamps). -/
theorem index_array_subscript_semantics_C6_witness :
    (executeIndexArray false false false
        (.arr [.num 10, .num 20, .num 30]) [((0 : Int), (5 : Int))] =
      .err .invalidSubscript (RETURN_ERROR_delivery false)) ∧
    (∃ r, executeIndexArray true true false
        (.arr [.num 10, .num 20, .num 30]) [((0 : Int), (5 : Int))] =
      .done r ([((0 : Int), (5 : Int))].flatMap
        (laxSliceSpec [.num 10, .num 20, .num 30]))) :=
  ⟨(index_array_subscript_semantics_C6 [.num 10, .num 20, .num 30]
      [((0 : Int), (5 : Int))] false).1
     ⟨((0 : Int), (5 : Int)), List.mem_cons_self _ _, by decide⟩,
   (index_array_subscript_semantics_C6 [.num 10, .num 20, .num 30]
      [((0 : Int), (5 : Int))] false).2.1⟩
